import Mathlib

/-!
Verification of the query-safety and generation pipeline of `src/mcp/server.py`
(natural-language-to-SQL service). The Python functions `clean_sql`,
`validate_sql`, `get_db_connection` and the `/ask` handler `ask_question` are
shallowly embedded as executable Lean functions over `String` / `List Char`.
String semantics are modelled at the ASCII level (the Python source only ever
compares ASCII characters: keywords, fences, the label prefix and whitespace).
-/

set_option maxRecDepth 10000

namespace MCPServer

/-- The ASCII whitespace characters recognised by Python's `str.strip()` and by
the regex class `\s` (space, tab, newline, carriage return, vertical tab,
form feed). -/
def isPySpace (c : Char) : Bool :=
  c == ' ' || c == '\t' || c == '\n' || c == '\r' || c == '\x0b' || c == '\x0c'

/-- `MAX_RETRIES = 3` from server.py. -/
def MAX_RETRIES : Nat := 3

/-- Left-to-right scan of `re.sub(r'```sql\n?', '', s)`: every occurrence of
three backticks followed by `sql` and an optional (greedy) newline is deleted;
on a non-match the head character is kept and the scan moves one position. -/
def subFenceSql : List Char → List Char
  | '\x60' :: '\x60' :: '\x60' :: 's' :: 'q' :: 'l' :: '\n' :: rest => subFenceSql rest
  | '\x60' :: '\x60' :: '\x60' :: 's' :: 'q' :: 'l' :: rest => subFenceSql rest
  | c :: rest => c :: subFenceSql rest
  | [] => []

/-- Left-to-right scan of `re.sub(r'```\n?', '', s)`. -/
def subFence : List Char → List Char
  | '\x60' :: '\x60' :: '\x60' :: '\n' :: rest => subFence rest
  | '\x60' :: '\x60' :: '\x60' :: rest => subFence rest
  | c :: rest => c :: subFence rest
  | [] => []

/-- The four characters of the lowercase language label. -/
def label_sql : List Char := ['s', 'q', 'l', ':']

/-- The four characters of the uppercase language label. -/
def label_SQL : List Char := ['S', 'Q', 'L', ':']

/-- `re.sub(r'^(sql|SQL):\s*', '', s)`: anchored at the start only; the label
and the greedy run of whitespace after it are removed. -/
def dropLabel (l : List Char) : List Char :=
  if label_sql.isPrefixOf l then (l.drop 4).dropWhile isPySpace
  else if label_SQL.isPrefixOf l then (l.drop 4).dropWhile isPySpace
  else l

/-- Python `str.strip()` (ASCII whitespace). -/
def py_strip_chars (l : List Char) : List Char :=
  List.rdropWhile isPySpace (l.dropWhile isPySpace)

/-- The predicate used by `rstrip(';')`. -/
def isSemi (c : Char) : Bool := c == ';'

/-- `clean_sql` from server.py: remove markdown code fences, remove the leading
`sql:`/`SQL:` label, strip surrounding whitespace, and `rstrip(';')` (which
removes the whole trailing run of semicolons). -/
def clean_sql (sql : String) : String :=
  ⟨List.rdropWhile isSemi (py_strip_chars (dropLabel (subFence (subFenceSql sql.data))))⟩

/-- Python `str.strip()` on a `String`, as applied to the incoming question. -/
def py_strip (s : String) : String := ⟨py_strip_chars s.data⟩

/-- Python `str.lower()` (ASCII letters). -/
def py_lower (s : String) : String := ⟨s.data.map Char.toLower⟩

/-- Python `str.startswith`. -/
def py_startswith (s pre : String) : Bool := pre.data.isPrefixOf s.data

/-- Regex word characters (`\w`, ASCII range): letters, digits, underscore. -/
def isWordChar (c : Char) : Bool := c.isAlphanum || c == '_'

/-- Match of the word `w` at the head of `l` together with the right word
boundary; the left boundary is checked by the caller. -/
def word_at_head (w l : List Char) : Bool :=
  w.isPrefixOf l &&
    (match l.drop w.length with
     | [] => true
     | c :: _ => !isWordChar c)

/-- Scan for a whole-word occurrence of `w` (a word made of word characters):
at each position a match needs the previous character (tracked in `prevWord`)
to not be a word character, `w` to occur, and the following character to not
be a word character. This models `re.search(rf'\b{w}\b', s)` being non-None. -/
def search_word_from (w : List Char) : List Char → Bool → Bool
  | [], _ => false
  | c :: rest, prevWord =>
    (!prevWord && word_at_head w (c :: rest)) || search_word_from w rest (isWordChar c)

/-- `re.search(rf'\b{w}\b', s) is not None` for a keyword `w`. -/
def re_search_word (w s : String) : Bool := search_word_from w.data s.data false

/-- The denylist from validate_sql. -/
def dangerous_keywords : List String :=
  ["drop", "delete", "truncate", "alter", "create",
   "insert", "update", "grant", "revoke", "exec",
   "execute", "procedure", "function"]

/-- `validate_sql` from server.py: lowercase, require the `select` prefix, then
return the first denylist keyword occurring as a whole word, if any. -/
def validate_sql (sql : String) : Bool × Option String :=
  let sql_lower := py_lower sql
  if !(py_startswith sql_lower "select") then
    (false, some "Only SELECT queries are allowed")
  else
    match dangerous_keywords.find? (fun kw => re_search_word kw sql_lower) with
    | some kw => (false, some ("Query contains forbidden keyword: " ++ kw))
    | none => (true, none)

/-- Whether `l` contains three consecutive backticks (a fence marker). -/
def has_fence : List Char → Bool
  | [] => false
  | c :: rest => (c == '\x60' && ['\x60', '\x60'].isPrefixOf rest) || has_fence rest

/-- Whether `sub` occurs as a contiguous substring of `l`. -/
def contains_sub (sub : List Char) : List Char → Bool
  | [] => sub.isEmpty
  | c :: rest => sub.isPrefixOf (c :: rest) || contains_sub sub rest

/-- Whether the string `sub` occurs inside `s`. -/
def contains_substr (s sub : String) : Bool := contains_sub sub.data s.data

/-- Whether the last character of `l` satisfies `p` (false for empty `l`). -/
def last_is (p : Char → Bool) (l : List Char) : Bool :=
  match l.getLast? with
  | some c => p c
  | none => false

/-- A raised `fastapi.HTTPException` (status code, detail string, and the
optional `X-Generated-SQL` response header attached at the raise site). -/
structure HTTPException where
  status_code : Nat
  detail : String
  sqlHeader : Option String
deriving Repr, DecidableEq

/-- Python `str()` of an HTTPException: `"{status_code}: {detail}"`. -/
def str_http (e : HTTPException) : String :=
  toString e.status_code ++ ": " ++ e.detail

/-- Outcome of the single `requests.post` to the model backend inside the
handler: timeout, transport error, a JSON body missing the `response` field,
or a successful body carrying the raw completion text. -/
inductive BackendResult where
  | timeout
  | transportError (msg : String)
  | malformed (body : String)
  | ok (response : String)

/-- Outcome of `cur.execute(sql)` on an acquired connection: rows fetched, a
`psycopg2.Error`, or any other exception. -/
inductive ExecResult where
  | rows (rs : List (List (String × String)))
  | dbError (msg : String)
  | otherError (msg : String)

/-- The success body `{question, sql, data, row_count}`. -/
structure QueryResponse where
  question : String
  sql : String
  data : List (List (String × String))
  row_count : Nat
deriving Repr, DecidableEq

/-- The HTTP outcome of one `/ask` request. -/
inductive AskResult where
  | ok (r : QueryResponse)
  | err (e : HTTPException)
deriving Repr, DecidableEq

/-- Observable side effects of one `/ask` request: whether the model backend
was called, and the list of query strings handed to `cur.execute`. -/
structure AskTrace where
  backendCalled : Bool
  dbQueries : List String
deriving Repr, DecidableEq

/-- The retry loop of `get_db_connection`, iterating over `range MAX_RETRIES`;
`connEnv i` is the outcome of connection attempt `i` (`none` = success,
`some msg` = `psycopg2.OperationalError` with message `msg`). A failure on a
non-final attempt retries; the final failure raises HTTP 503. Falling out of
the loop returns Python `None`, modelled as `.ok none` (unreachable when the
attempt list is nonempty). -/
def conn_loop (connEnv : Nat → Option String) : List Nat → Except HTTPException (Option Unit)
  | [] => .ok none
  | attempt :: rest =>
    match connEnv attempt with
    | none => .ok (some ())
    | some e =>
      match rest with
      | [] => .error ⟨503, "Database unavailable: " ++ e, none⟩
      | _ :: _ => conn_loop connEnv rest

/-- `get_db_connection` from server.py. -/
def get_db_connection (connEnv : Nat → Option String) : Except HTTPException (Option Unit) :=
  conn_loop connEnv (List.range MAX_RETRIES)

/-- The `/ask` handler `ask_question` from server.py, as a function of the
incoming question and of the outcomes of its two upstream calls. Note that the
`try` block around connection acquisition and execution catches every
`Exception`; a `fastapi.HTTPException` raised by `get_db_connection` (a 503)
is therefore caught by the generic handler and re-raised as a 500 whose detail
embeds `str(e)`. -/
def ask_question (question : String) (backend : BackendResult)
    (connEnv : Nat → Option String) (execEnv : String → ExecResult) :
    AskResult × AskTrace :=
  let q := py_strip question
  if q = "" then
    (.err ⟨400, "Question cannot be empty", none⟩, ⟨false, []⟩)
  else
    match backend with
    | .timeout =>
        (.err ⟨503, "Ollama request timed out. The model may still be loading.", none⟩,
         ⟨true, []⟩)
    | .transportError m =>
        (.err ⟨503, "Ollama service error: " ++ m, none⟩, ⟨true, []⟩)
    | .malformed body =>
        (.err ⟨500, "Error generating SQL: 503: Unexpected Ollama response format: " ++ body,
               none⟩,
         ⟨true, []⟩)
    | .ok raw =>
        let sql := clean_sql raw
        let v := validate_sql sql
        if v.1 = false then
          (.err ⟨400, v.2.getD "", some sql⟩, ⟨true, []⟩)
        else
          match get_db_connection connEnv with
          | .error e =>
              (.err ⟨500, "Query execution error: " ++ str_http e, some sql⟩, ⟨true, []⟩)
          | .ok none =>
              (.err ⟨500, "Query execution error: NoneType has no attribute cursor", some sql⟩,
               ⟨true, []⟩)
          | .ok (some _) =>
              match execEnv sql with
              | .rows rs => (.ok ⟨q, sql, rs, rs.length⟩, ⟨true, [sql]⟩)
              | .dbError m =>
                  (.err ⟨400, "SQL execution failed: " ++ m, some sql⟩, ⟨true, [sql]⟩)
              | .otherError m =>
                  (.err ⟨500, "Query execution error: " ++ m, some sql⟩, ⟨true, [sql]⟩)

/-! Helper lemmas about the fence-removal passes. -/

lemma twoTicks_iff (rest : List Char) :
    (['\x60', '\x60'].isPrefixOf rest = true) ↔ ∃ t, rest = '\x60' :: '\x60' :: t := by
  rw [ List.isPrefixOf_iff_prefix]
  constructor
  · rintro ⟨t, rfl⟩; exact ⟨t, rfl⟩
  · rintro ⟨t, rfl⟩; exact ⟨t, rfl⟩

lemma has_fence_cons (c : Char) (rest : List Char) :
    has_fence (c :: rest) =
      ((c == '\x60' && ['\x60', '\x60'].isPrefixOf rest) || has_fence rest) := by
  rw [has_fence]

lemma subFence_cons_eq (c : Char) (rest : List Char)
    (h : ¬(c = '\x60' ∧ ∃ t, rest = '\x60' :: '\x60' :: t)) :
    subFence (c :: rest) = c :: subFence rest := by
  rw [subFence.eq_def]
  split
  all_goals rename_i heq
  · injection heq with e1 e2
    exact absurd ⟨e1, _, e2⟩ h
  · injection heq with e1 e2
    exact absurd ⟨e1, _, e2⟩ h
  · injection heq with e1 e2
    subst e1; subst e2; rfl
  · simp at heq

lemma subFenceSql_cons_eq (c : Char) (rest : List Char)
    (h : ¬(c = '\x60' ∧ ∃ t, rest = '\x60' :: '\x60' :: 's' :: 'q' :: 'l' :: t)) :
    subFenceSql (c :: rest) = c :: subFenceSql rest := by
  rw [subFenceSql.eq_def]
  split
  all_goals rename_i heq
  · injection heq with e1 e2
    exact absurd ⟨e1, _, e2⟩ h
  · injection heq with e1 e2
    exact absurd ⟨e1, _, e2⟩ h
  · injection heq with e1 e2
    subst e1; subst e2; rfl
  · simp at heq

lemma subFence_head_tick (l : List Char)
    (h : ∃ t, subFence l = '\x60' :: t) : ∃ t, l = '\x60' :: t := by
  induction l using subFence.induct with
  | case1 rest ih => exact ⟨_, rfl⟩
  | case2 rest h2 ih => exact ⟨_, rfl⟩
  | case3 c rest h1 h2 ih =>
    obtain ⟨t, ht⟩ := h
    rw [subFence_cons_eq c rest (by rintro ⟨rfl, t1, rfl⟩; exact h2 t1 rfl rfl)] at ht
    injection ht with e1 e2
    exact ⟨rest, by rw [e1]⟩
  | case4 => obtain ⟨t, ht⟩ := h; simp [subFence] at ht

lemma subFence_head_two_ticks (l : List Char)
    (h : ∃ t, subFence l = '\x60' :: '\x60' :: t) :
    ∃ t, l = '\x60' :: '\x60' :: t := by
  induction l using subFence.induct with
  | case1 rest ih => exact ⟨_, rfl⟩
  | case2 rest h2 ih => exact ⟨_, rfl⟩
  | case3 c rest h1 h2 ih =>
    obtain ⟨t, ht⟩ := h
    rw [subFence_cons_eq c rest (by rintro ⟨rfl, t1, rfl⟩; exact h2 t1 rfl rfl)] at ht
    injection ht with e1 e2
    obtain ⟨t2, ht2⟩ := subFence_head_tick rest ⟨t, e2⟩
    exact ⟨t2, by rw [e1, ht2]⟩
  | case4 => obtain ⟨t, ht⟩ := h; simp [subFence] at ht

/-- The second sub pass leaves no three consecutive backticks behind: a fence
in the output would need two output backticks right after an emitted backtick,
which forces a fence at the corresponding scan position of the input. -/
lemma has_fence_subFence (l : List Char) : has_fence (subFence l) = false := by
  induction l using subFence.induct with
  | case1 rest ih => rw [subFence]; exact ih
  | case2 rest h2 ih =>
    have hstep : subFence ('\x60' :: '\x60' :: '\x60' :: rest) = subFence rest := by
      rw [subFence.eq_def]
      split
      all_goals rename_i heq
      · injection heq with e1 e2; injection e2 with e3 e4; injection e4 with e5 e6
        exact (h2 _ e6).elim
      · injection heq with e1 e2; injection e2 with e3 e4; injection e4 with e5 e6
        simp only [e6]
      · rename_i hc1 hc2
        injection heq with e1 e2
        exact (hc2 rest e1.symm e2.symm).elim
      · simp at heq
    rw [hstep]; exact ih
  | case3 c rest h1 h2 ih =>
    rw [subFence_cons_eq c rest (by rintro ⟨rfl, t1, rfl⟩; exact h2 t1 rfl rfl),
        has_fence_cons, ih, Bool.or_false]
    cases hcb : (c == '\x60') with
    | false => rfl
    | true =>
      rw [Bool.true_and]
      by_contra hpre
      rw [Bool.not_eq_false, twoTicks_iff] at hpre
      obtain ⟨t2, ht2⟩ := subFence_head_two_ticks rest hpre
      exact h2 t2 (by simpa using hcb) ht2
  | case4 => rfl

lemma isPrefixOf_append_mono (p t b : List Char) (h : p.isPrefixOf t = true) :
    p.isPrefixOf (t ++ b) = true := by
  rw [ List.isPrefixOf_iff_prefix] at h ⊢
  exact h.trans (List.prefix_append t b)

lemma has_fence_append_left (a b : List Char) (h : has_fence a = true) :
    has_fence (a ++ b) = true := by
  induction a with
  | nil => simp [has_fence] at h
  | cons c t ih =>
    rw [has_fence_cons] at h
    rw [List.cons_append, has_fence_cons]
    rcases (Bool.or_eq_true _ _).mp h with h1 | h2
    · rw [Bool.and_eq_true] at h1
      rw [h1.1, Bool.true_and, isPrefixOf_append_mono _ _ _ h1.2, Bool.true_or]
    · rw [ih h2, Bool.or_true]

lemma has_fence_append_right (a b : List Char) (h : has_fence b = true) :
    has_fence (a ++ b) = true := by
  induction a with
  | nil => simpa using h
  | cons c t ih => rw [List.cons_append, has_fence_cons, ih, Bool.or_true]

lemma has_fence_mono_tail {l₁ l₂ : List Char} (hs : l₂ <:+ l₁)
    (h : has_fence l₁ = false) : has_fence l₂ = false := by
  obtain ⟨a, rfl⟩ := hs
  by_contra h2
  rw [Bool.not_eq_false] at h2
  rw [has_fence_append_right a l₂ h2] at h
  simp at h

lemma has_fence_mono_init {l₁ l₂ : List Char} (hp : l₂ <+: l₁)
    (h : has_fence l₁ = false) : has_fence l₂ = false := by
  obtain ⟨a, rfl⟩ := hp
  by_contra h2
  rw [Bool.not_eq_false] at h2
  rw [has_fence_append_left l₂ a h2] at h
  simp at h

lemma has_fence_cons_false (c : Char) (rest : List Char)
    (h : has_fence (c :: rest) = false) :
    ¬(c = '\x60' ∧ ∃ t, rest = '\x60' :: '\x60' :: t) ∧ has_fence rest = false := by
  rw [has_fence_cons] at h
  rcases Bool.or_eq_false_iff.mp h with ⟨h1, h2⟩
  refine ⟨?_, h2⟩
  rintro ⟨rfl, t, rfl⟩
  simp [List.isPrefixOf] at h1

lemma subFence_eq_self (l : List Char) (h : has_fence l = false) : subFence l = l := by
  induction l with
  | nil => rfl
  | cons c rest ih =>
    obtain ⟨h1, h2⟩ := has_fence_cons_false c rest h
    rw [subFence_cons_eq c rest h1, ih h2]

lemma subFenceSql_eq_self (l : List Char) (h : has_fence l = false) : subFenceSql l = l := by
  induction l with
  | nil => rfl
  | cons c rest ih =>
    obtain ⟨h1, h2⟩ := has_fence_cons_false c rest h
    rw [subFenceSql_cons_eq c rest
          (by rintro ⟨rfl, t, rfl⟩; exact h1 ⟨rfl, 's' :: 'q' :: 'l' :: t, rfl⟩),
        ih h2]

lemma subFenceSql_append (a b : List Char) (ha : ∀ c ∈ a, c ≠ '\x60') :
    subFenceSql (a ++ b) = a ++ subFenceSql b := by
  induction a with
  | nil => rfl
  | cons c t ih =>
    rw [List.cons_append,
        subFenceSql_cons_eq c (t ++ b) (by rintro ⟨rfl, _, _⟩; exact ha _ (by simp) rfl),
        ih (fun x hx => ha x (by simp [hx]))]
    rfl

lemma subFence_append (a b : List Char) (ha : ∀ c ∈ a, c ≠ '\x60') :
    subFence (a ++ b) = a ++ subFence b := by
  induction a with
  | nil => rfl
  | cons c t ih =>
    rw [List.cons_append,
        subFence_cons_eq c (t ++ b) (by rintro ⟨rfl, _, _⟩; exact ha _ (by simp) rfl),
        ih (fun x hx => ha x (by simp [hx]))]
    rfl

/-! Helper lemmas about the label and whitespace stages. -/

lemma dropLabel_eq_self (l : List Char)
    (h1 : label_sql.isPrefixOf l = false) (h2 : label_SQL.isPrefixOf l = false) :
    dropLabel l = l := by
  simp [dropLabel, h1, h2]

lemma dropLabel_suffix_rel (l : List Char) : dropLabel l <:+ l := by
  unfold dropLabel
  split
  · exact ( List.dropWhile_suffix _).trans (List.drop_suffix 4 l)
  · split
    · exact ( List.dropWhile_suffix _).trans (List.drop_suffix 4 l)
    · exact List.suffix_refl l

lemma dropWhile_eq_self_mono (p : Char → Bool) {y l : List Char} (hy : y <+: l)
    (h : l.dropWhile p = l) : y.dropWhile p = y := by
  cases y with
  | nil => rfl
  | cons c t =>
    cases l with
    | nil => simp at hy
    | cons d u =>
      rw [List.cons_prefix_cons] at hy
      obtain ⟨rfl, htu⟩ := hy
      cases hp : p c with
      | true =>
        exfalso
        rw [List.dropWhile_cons, hp, if_pos rfl] at h
        have hlen := congrArg List.length h
        have hle : (u.dropWhile p).length ≤ u.length := (List.dropWhile_sublist p).length_le
        simp at hlen
        omega
      | false =>
        rw [List.dropWhile_cons, hp]
        exact if_neg Bool.false_ne_true

lemma rdropWhile_eq_self_of_last (p : Char → Bool) (l : List Char)
    (h : last_is p l = false) : List.rdropWhile p l = l := by
  rw [List.rdropWhile_eq_self_iff]
  intro hl
  have hsome : l.getLast? = some (l.getLast hl) := List.getLast?_eq_getLast l hl
  rw [last_is, hsome] at h
  change p (l.getLast hl) = false at h
  simp [h]

lemma last_is_rdropWhile (p : Char → Bool) (l : List Char) :
    last_is p (List.rdropWhile p l) = false := by
  by_cases hn : List.rdropWhile p l = []
  · rw [hn]; rfl
  · have hnot := List.rdropWhile_last_not p l hn
    rw [last_is, List.getLast?_eq_getLast _ hn]
    simpa using hnot

/-- Every output of `clean_sql` is free of fence markers: the second sub pass
leaves none, and the later stages only remove characters from the ends. -/
lemma has_fence_clean_sql (s : String) : has_fence (clean_sql s).data = false := by
  have h1 : has_fence (subFence (subFenceSql s.data)) = false := has_fence_subFence _
  show has_fence
      (List.rdropWhile isSemi
        (py_strip_chars (dropLabel (subFence (subFenceSql s.data))))) = false
  apply has_fence_mono_init ( List.rdropWhile_prefix _ _)
  rw [py_strip_chars]
  apply has_fence_mono_init ( List.rdropWhile_prefix _ _)
  apply has_fence_mono_tail ( List.dropWhile_suffix _)
  exact has_fence_mono_tail (dropLabel_suffix_rel _) h1

/-! Helper lemmas about the classifier. -/

lemma validate_sql_def (s : String) :
    validate_sql s =
      if !(py_startswith (py_lower s) "select") then
        (false, some "Only SELECT queries are allowed")
      else
        match dangerous_keywords.find? (fun kw => re_search_word kw (py_lower s)) with
        | some kw => (false, some ("Query contains forbidden keyword: " ++ kw))
        | none => (true, none) := rfl

lemma validate_sql_not_select (s : String)
    (h : py_startswith (py_lower s) "select" = false) :
    validate_sql s = (false, some "Only SELECT queries are allowed") := by
  rw [validate_sql_def, h]
  rfl

lemma validate_sql_accepts (s : String)
    (hsel : py_startswith (py_lower s) "select" = true)
    (hall : dangerous_keywords.all (fun kw => !re_search_word kw (py_lower s)) = true) :
    validate_sql s = (true, none) := by
  have hf : dangerous_keywords.find? (fun kw => re_search_word kw (py_lower s)) = none := by
    rw [List.find?_eq_none]
    intro x hx
    have := List.all_eq_true.mp hall x hx
    simpa using this
  rw [validate_sql_def, hsel, hf]
  rfl

lemma validate_sql_true (s : String) (h : (validate_sql s).1 = true) :
    validate_sql s = (true, none) ∧
    py_startswith (py_lower s) "select" = true ∧
    dangerous_keywords.all (fun kw => !re_search_word kw (py_lower s)) = true := by
  rw [validate_sql_def] at h
  cases hsel : py_startswith (py_lower s) "select" with
  | false => rw [hsel] at h; simp at h
  | true =>
    rw [hsel] at h
    cases hf : dangerous_keywords.find? (fun kw => re_search_word kw (py_lower s)) with
    | some kw => rw [hf] at h; simp at h
    | none =>
      refine ⟨by rw [validate_sql_def, hsel, hf]; rfl, rfl, ?_⟩
      rw [List.all_eq_true]
      intro kw hkw
      have := List.find?_eq_none.mp hf kw hkw
      simpa using this

lemma string_append_data (a b : String) : (a ++ b).data = a.data ++ b.data := rfl

/-- If the classifier's reported reason names the keyword `kw`, then `kw`
really occurs as a whole word in the lowercased query. -/
lemma validate_sql_names_only_found (s kw : String)
    (h : (validate_sql s).2 = some ("Query contains forbidden keyword: " ++ kw)) :
    re_search_word kw (py_lower s) = true := by
  rw [validate_sql_def] at h
  cases hsel : py_startswith (py_lower s) "select" with
  | false =>
    rw [hsel] at h
    simp only [Bool.not_false, if_true, Option.some.injEq] at h
    exfalso
    have hd : ("Only SELECT queries are allowed").data.length =
        ("Query contains forbidden keyword: " ++ kw).data.length := by rw [h]
    rw [string_append_data, List.length_append] at hd
    have h31 : ("Only SELECT queries are allowed").data.length = 31 := rfl
    have h34 : ("Query contains forbidden keyword: ").data.length = 34 := rfl
    omega
  | true =>
    rw [hsel] at h
    cases hf : dangerous_keywords.find? (fun kw2 => re_search_word kw2 (py_lower s)) with
    | none => rw [hf] at h; simp at h
    | some kw2 =>
      rw [hf] at h
      have h2 : ("Query contains forbidden keyword: " ++ kw2) =
          ("Query contains forbidden keyword: " ++ kw) := by
        have h3 :
            ((false, some ("Query contains forbidden keyword: " ++ kw2)) :
              Bool × Option String).2 =
            some ("Query contains forbidden keyword: " ++ kw) := by
          rw [← h]
          rfl
        simpa using h3
      have hk : kw2 = kw := by
        have hd := congrArg String.data h2
        rw [string_append_data, string_append_data] at hd
        have hc := List.append_cancel_left hd
        cases kw2; cases kw
        exact congrArg String.mk (by simpa using hc)
      rw [← hk]
      have hp := List.find?_some hf
      simpa using hp

/-- Boolean form of "the classifier named some keyword that does occur as a
whole word in the lowercased query". -/
def names_some_found_keyword (q : String) : Bool :=
  match (validate_sql q).2 with
  | some msg =>
      dangerous_keywords.any
        (fun kw => re_search_word kw (py_lower q) &&
          (msg == "Query contains forbidden keyword: " ++ kw))
  | none => false

/-- Branch lemma for the handler: a generated query that fails validation is
reported back with HTTP 400, the reason, and the rejected SQL; nothing reaches
the database. -/
lemma ask_ok_rejected (question raw : String) (connEnv : Nat → Option String)
    (execEnv : String → ExecResult)
    (hq : py_strip question ≠ "")
    (hv : (validate_sql (clean_sql raw)).1 = false) :
    ask_question question (.ok raw) connEnv execEnv =
      (.err ⟨400, (validate_sql (clean_sql raw)).2.getD "", some (clean_sql raw)⟩,
       ⟨true, []⟩) := by
  simp [ask_question, hq, hv]

/-- C1: for every `/ask` request, any query string handed to database
execution has first passed the classifier: its lowercased form starts with
`select` and contains none of the forbidden keywords as a whole word; a query
that fails classification is never handed to the database. -/
theorem claim1_db_gets_only_validated (question : String) (backend : BackendResult)
    (connEnv : Nat → Option String) (execEnv : String → ExecResult) (s : String)
    (hmem : s ∈ (ask_question question backend connEnv execEnv).2.dbQueries) :
    validate_sql s = (true, none) ∧
    py_startswith (py_lower s) "select" = true ∧
    dangerous_keywords.all (fun kw => !re_search_word kw (py_lower s)) = true := by
  simp only [ask_question] at hmem
  split at hmem
  · simp at hmem
  · split at hmem
    · simp at hmem
    · simp at hmem
    · simp at hmem
    · rename_i raw
      split at hmem
      · simp at hmem
      · rename_i hv
        have hv1 : (validate_sql (clean_sql raw)).1 = true := by
          rcases Bool.eq_false_or_eq_true ((validate_sql (clean_sql raw)).1) with h | h
          · exact h
          · exact absurd h hv
        split at hmem
        · simp at hmem
        · simp at hmem
        · split at hmem
          all_goals simp at hmem
          all_goals subst hmem
          all_goals exact validate_sql_true _ hv1

/-- C1 witness: a concrete run in which `SELECT * FROM users` reaches the
database and is indeed validated. -/
theorem claim1_witness :
    validate_sql "SELECT * FROM users" = (true, none) ∧
    py_startswith (py_lower "SELECT * FROM users") "select" = true ∧
    dangerous_keywords.all
      (fun kw => !re_search_word kw (py_lower "SELECT * FROM users")) = true :=
  claim1_db_gets_only_validated "list all users" (.ok "```sql\nSELECT * FROM users\n```")
    (fun _ => none) (fun _ => .rows []) "SELECT * FROM users" (by decide)

/-- C2: when the database connection fails on all three retry attempts, the
`HTTPException(503, "Database unavailable: ...")` raised by
`get_db_connection` is caught by the handler's blanket `except Exception` and
re-raised as HTTP 500 with detail `"Query execution error: 503: Database
unavailable: ..."`; the caller observes 500, not the claimed 503. -/
theorem claim2_conn_exhaustion_yields_500 :
    ask_question "list all users" (.ok "SELECT * FROM users")
        (fun _ => some "connection refused") (fun _ => .rows []) =
      (.err ⟨500, "Query execution error: 503: Database unavailable: connection refused",
             some "SELECT * FROM users"⟩,
       ⟨true, []⟩) ∧
    get_db_connection (fun _ => some "connection refused") =
      .error ⟨503, "Database unavailable: connection refused", none⟩ :=
  ⟨by decide, rfl⟩

/-- C3 counterexample: for the generated query `DELETE FROM users` the
response is HTTP 400 and carries the rejected SQL, but its reason is the
select-only message; the offending keyword `delete` is named nowhere in it. -/
theorem claim3_counterexample :
    ask_question "remove every user" (.ok "DELETE FROM users")
        (fun _ => none) (fun _ => .rows []) =
      (.err ⟨400, "Only SELECT queries are allowed", some "DELETE FROM users"⟩,
       ⟨true, []⟩) ∧
    contains_substr (py_lower "Only SELECT queries are allowed") "delete" = false := by
  decide

/-- C3 amended: a generated query rejected by the classifier produces HTTP 400
carrying the classifier's reason and the generated-but-rejected SQL, and no
database call is made; for `DELETE FROM users` specifically the reason is
`Only SELECT queries are allowed` (the select check fires before the keyword
scan). -/
theorem claim3_amended :
    (∀ (question raw : String) (connEnv : Nat → Option String)
       (execEnv : String → ExecResult),
       py_strip question ≠ "" →
       (validate_sql (clean_sql raw)).1 = false →
       ask_question question (.ok raw) connEnv execEnv =
         (.err ⟨400, (validate_sql (clean_sql raw)).2.getD "", some (clean_sql raw)⟩,
          ⟨true, []⟩)) ∧
    (∀ (question : String) (connEnv : Nat → Option String)
       (execEnv : String → ExecResult),
       py_strip question ≠ "" →
       ask_question question (.ok "DELETE FROM users") connEnv execEnv =
         (.err ⟨400, "Only SELECT queries are allowed", some "DELETE FROM users"⟩,
          ⟨true, []⟩)) := by
  constructor
  · intro question raw connEnv execEnv hq hv
    exact ask_ok_rejected question raw connEnv execEnv hq hv
  · intro question connEnv execEnv hq
    have h := ask_ok_rejected question "DELETE FROM users" connEnv execEnv hq (by decide)
    exact h.trans (by decide)

/-- C3 witness: a concrete rejected run. -/
theorem claim3_witness :
    ask_question "drop it all" (.ok "DELETE FROM users")
        (fun _ => none) (fun _ => .rows []) =
      (.err ⟨400, "Only SELECT queries are allowed", some "DELETE FROM users"⟩,
       ⟨true, []⟩) :=
  claim3_amended.2 "drop it all" (fun _ => none) (fun _ => .rows []) (by decide)

/-- C4 counterexample: `DELETE FROM users` contains the forbidden keyword
`delete` as a whole word, and the classifier rejects it, but the reported
reason is the select-only message, which does not name `delete`. -/
theorem claim4_counterexample :
    re_search_word "delete" (py_lower "DELETE FROM users") = true ∧
    validate_sql "DELETE FROM users" = (false, some "Only SELECT queries are allowed") ∧
    contains_substr (py_lower "Only SELECT queries are allowed") "delete" = false := by
  decide

/-- C4 amended: for every query that begins (case-insensitively) with `select`
and contains a forbidden keyword as a whole word (any letter case, any
adjacent punctuation), the classifier rejects it and names a forbidden keyword
that does occur as a whole word; and the classifier never names a keyword that
does not occur as a whole word, so a substring inside a larger identifier
(such as `create` inside `created_at`) never triggers that keyword. A
keyword-containing query not starting with `select` is rejected with the
select-only reason instead. -/
theorem claim4_amended :
    (∀ (q kw : String), kw ∈ dangerous_keywords →
       py_startswith (py_lower q) "select" = true →
       re_search_word kw (py_lower q) = true →
       (validate_sql q).1 = false ∧ names_some_found_keyword q = true) ∧
    (∀ (q kw : String), re_search_word kw (py_lower q) = false →
       ((validate_sql q).2 == some ("Query contains forbidden keyword: " ++ kw)) = false) := by
  constructor
  · intro q kw hkw hsel hre
    have hsome : (dangerous_keywords.find? (fun k => re_search_word k (py_lower q))).isSome :=
      List.find?_isSome.mpr ⟨kw, hkw, hre⟩
    obtain ⟨kw2, hf⟩ := Option.isSome_iff_exists.mp hsome
    have hkw2mem := List.mem_of_find?_eq_some hf
    have hkw2p : re_search_word kw2 (py_lower q) = true := by
      have := List.find?_some hf
      simpa using this
    have hvq : validate_sql q =
        (false, some ("Query contains forbidden keyword: " ++ kw2)) := by
      rw [validate_sql_def, hsel, hf]
      rfl
    constructor
    · rw [hvq]
    · rw [names_some_found_keyword, hvq]
      show dangerous_keywords.any _ = true
      rw [List.any_eq_true]
      refine ⟨kw2, hkw2mem, ?_⟩
      rw [Bool.and_eq_true]
      exact ⟨hkw2p, beq_self_eq_true _⟩
  · intro q kw h
    by_contra hbe
    have hbe2 : ((validate_sql q).2 == some ("Query contains forbidden keyword: " ++ kw))
        = true := by
      rcases Bool.eq_false_or_eq_true
          ((validate_sql q).2 == some ("Query contains forbidden keyword: " ++ kw)) with
        hb | hb
      · exact hb
      · exact absurd hb hbe
    have heq : (validate_sql q).2 = some ("Query contains forbidden keyword: " ++ kw) := by
      simpa using hbe2
    have hfound := validate_sql_names_only_found q kw heq
    rw [hfound] at h
    exact absurd h (by decide)

/-- C4 witness: a select query containing `drop` is rejected naming a present
keyword; `select created_at from users` is never blamed on `create`. -/
theorem claim4_witness :
    ((validate_sql "select 1; drop table users").1 = false ∧
      names_some_found_keyword "select 1; drop table users" = true) ∧
    ((validate_sql "select created_at from users").2 ==
      some ("Query contains forbidden keyword: " ++ "create")) = false :=
  ⟨claim4_amended.1 "select 1; drop table users" "drop" (by decide) (by decide) (by decide),
   claim4_amended.2 "select created_at from users" "create" (by decide)⟩

/-- C7 counterexample: on an input ending in two semicolons the sanitizer
removes the whole trailing run (`rstrip(';')`), so the output does not still
end with a semicolon as claimed. -/
theorem claim7_counterexample :
    clean_sql "SELECT 1;;" = "SELECT 1" ∧
    last_is isSemi (clean_sql "SELECT 1;;").data = false := by decide

/-- C7 amended: `clean_sql` is a pure total function that removes the whole
trailing run of statement terminators: its output never ends with a semicolon
(and at worst it returns the empty string). -/
theorem claim7_amended (s : String) : last_is isSemi (clean_sql s).data = false :=
  last_is_rdropWhile isSemi _

/-- C8: a question that is empty after trimming whitespace is answered with
HTTP 400 and an input-rejected diagnosis, and no call is made to the model
backend. -/
theorem claim8_empty_question (question : String) (backend : BackendResult)
    (connEnv : Nat → Option String) (execEnv : String → ExecResult)
    (h : py_strip question = "") :
    ask_question question backend connEnv execEnv =
      (.err ⟨400, "Question cannot be empty", none⟩, ⟨false, []⟩) := by
  simp [ask_question, h]

/-- C8 witness: a whitespace-only question. -/
theorem claim8_witness :
    py_strip "  \t " = "" ∧
    ask_question "  \t " BackendResult.timeout (fun _ => none) (fun _ => ExecResult.rows []) =
      (.err ⟨400, "Question cannot be empty", none⟩, ⟨false, []⟩) :=
  ⟨by decide,
   claim8_empty_question "  \t " BackendResult.timeout (fun _ => none)
     (fun _ => ExecResult.rows []) (by decide)⟩

/-- C9: the read-only check is a pure prefix test, not a whole-word test:
every query whose lowercased text begins with the six letters `select`
(including words merely starting with them, such as `selection`) passes the
select check, and if it contains no forbidden whole-word keyword it is
accepted as validated. -/
theorem claim9_select_is_pure_prefix_check (sql : String)
    (hsel : py_startswith (py_lower sql) "select" = true)
    (hall : dangerous_keywords.all (fun kw => !re_search_word kw (py_lower sql)) = true) :
    validate_sql sql = (true, none) :=
  validate_sql_accepts sql hsel hall

/-- C9 witness: a query starting with the word `selection` is accepted. -/
theorem claim9_witness :
    py_startswith (py_lower "SELECTION of all names from users") "select" = true ∧
    validate_sql "SELECTION of all names from users" = (true, none) :=
  ⟨by decide,
   claim9_select_is_pure_prefix_check "SELECTION of all names from users"
     (by decide) (by decide)⟩

lemma clean_sql_data (s : String) :
    (clean_sql s).data =
      List.rdropWhile isSemi
        (py_strip_chars (dropLabel (subFence (subFenceSql s.data)))) := rfl

/-- C5 counterexample: `sql: sql: select 1` is free of fence markers, yet a
second sanitization pass strips the second stacked label, so sanitize is not
idempotent on it. -/
theorem claim5_counterexample :
    has_fence ("sql: sql: select 1").data = false ∧
    clean_sql "sql: sql: select 1" = "sql: select 1" ∧
    clean_sql (clean_sql "sql: sql: select 1") = "select 1" ∧
    (clean_sql (clean_sql "sql: sql: select 1") == clean_sql "sql: sql: select 1") = false := by
  decide

/-- C5 amended: for every string x free of fence markers whose sanitized form
does not itself begin with a language label (`sql:` or `SQL:`) and does not
end in whitespace, sanitize is idempotent: sanitize(sanitize(x)) equals
sanitize(x). -/
theorem claim5_amended (x : String)
    (_hx : has_fence x.data = false)
    (h1 : py_startswith (clean_sql x) "sql:" = false)
    (h2 : py_startswith (clean_sql x) "SQL:" = false)
    (h3 : last_is isPySpace (clean_sql x).data = false) :
    clean_sql (clean_sql x) = clean_sql x := by
  have hfy : has_fence (clean_sql x).data = false := has_fence_clean_sql x
  have e1 : subFenceSql (clean_sql x).data = (clean_sql x).data := subFenceSql_eq_self _ hfy
  have e2 : subFence (clean_sql x).data = (clean_sql x).data := subFence_eq_self _ hfy
  have e3 : dropLabel (clean_sql x).data = (clean_sql x).data := by
    apply dropLabel_eq_self
    · exact h1
    · exact h2
  have e4 : (clean_sql x).data.dropWhile isPySpace = (clean_sql x).data := by
    have hpre1 : (clean_sql x).data <+:
        py_strip_chars (dropLabel (subFence (subFenceSql x.data))) := by
      rw [clean_sql_data]
      exact List.rdropWhile_prefix _ _
    have hpre2 : py_strip_chars (dropLabel (subFence (subFenceSql x.data))) <+:
        (dropLabel (subFence (subFenceSql x.data))).dropWhile isPySpace := by
      rw [py_strip_chars]
      exact List.rdropWhile_prefix _ _
    exact dropWhile_eq_self_mono isPySpace (hpre1.trans hpre2)
      (List.dropWhile_idempotent _ _)
  have e5 : List.rdropWhile isPySpace (clean_sql x).data = (clean_sql x).data :=
    rdropWhile_eq_self_of_last _ _ h3
  have e6 : List.rdropWhile isSemi (clean_sql x).data = (clean_sql x).data := by
    rw [clean_sql_data]
    exact List.rdropWhile_idempotent _ _
  have hdata : (clean_sql (clean_sql x)).data = (clean_sql x).data := by
    rw [clean_sql_data, e1, e2, e3, py_strip_chars, e4, e5, e6]
  exact String.ext hdata

/-- C5 witness: a label-plus-semicolon input satisfying the amended side
conditions. -/
theorem claim5_witness :
    has_fence ("sql: SELECT 1;").data = false ∧
    clean_sql (clean_sql "sql: SELECT 1;") = clean_sql "sql: SELECT 1;" :=
  ⟨by decide, claim5_amended "sql: SELECT 1;" (by decide) (by decide) (by decide) (by decide)⟩

/-- C6: for every raw completion containing a fenced code block with a
language tag, the sanitized output contains no fence markers and does not end
with a statement terminator. -/
theorem claim6_no_fences_no_terminator (s : String)
    (_hfenced : contains_substr s "```sql" = true) :
    has_fence (clean_sql s).data = false ∧ last_is isSemi (clean_sql s).data = false :=
  ⟨has_fence_clean_sql s, last_is_rdropWhile isSemi _⟩

/-- C6 witness: a tagged fenced completion. -/
theorem claim6_witness :
    contains_substr "```sql\nSELECT * FROM users;\n```" "```sql" = true ∧
    (has_fence (clean_sql "```sql\nSELECT * FROM users;\n```").data = false ∧
     last_is isSemi (clean_sql "```sql\nSELECT * FROM users;\n```").data = false) :=
  ⟨by decide, claim6_no_fences_no_terminator "```sql\nSELECT * FROM users;\n```" (by decide)⟩

/-! Helper lemmas for C10: a whitespace-guarded label survives sanitization. -/

lemma isPySpace_cases (c : Char) (h : isPySpace c = true) :
    c = ' ' ∨ c = '\t' ∨ c = '\n' ∨ c = '\r' ∨ c = '\x0b' ∨ c = '\x0c' := by
  rw [isPySpace] at h
  simp only [Bool.or_eq_true, beq_iff_eq] at h
  tauto

lemma isPySpace_not_btick (c : Char) (h : isPySpace c = true) : c ≠ '\x60' := by
  rcases isPySpace_cases c h with rfl | rfl | rfl | rfl | rfl | rfl <;> decide

lemma isPySpace_not_s (c : Char) (h : isPySpace c = true) :
    ('s' == c) = false ∧ ('S' == c) = false := by
  rcases isPySpace_cases c h with rfl | rfl | rfl | rfl | rfl | rfl <;> decide

lemma label_no_match_after_space (c0 : Char) (h : isPySpace c0 = true) (Y : List Char) :
    label_sql.isPrefixOf (c0 :: Y) = false ∧ label_SQL.isPrefixOf (c0 :: Y) = false := by
  have hs := isPySpace_not_s c0 h
  constructor
  · rw [label_sql]
    simp [List.isPrefixOf, hs.1]
  · rw [label_SQL]
    simp [List.isPrefixOf, hs.2]

/-- A right-strip of `a ++ b` keeps `a` intact as long as `a` does not itself
end in a stripped character. -/
lemma rdropWhile_append_keep (p : Char → Bool) (a b : List Char) (ha : a ≠ [])
    (hlast : p (a.getLast ha) = false) :
    ∃ t, List.rdropWhile p (a ++ b) = a ++ t := by
  rw [List.rdropWhile, List.reverse_append, List.dropWhile_append]
  split
  · refine ⟨[], ?_⟩
    rw [List.append_nil]
    have hrev : a.reverse.dropWhile p = a.reverse := by
      cases hr : a.reverse with
      | nil => simp
      | cons c t =>
        have hc0 : a.getLast? = some c := by rw [← List.head?_reverse, hr]; rfl
        have hc1 : a.getLast? = some (a.getLast ha) := List.getLast?_eq_getLast a ha
        have hc : c = a.getLast ha := by
          rw [hc0] at hc1
          injection hc1
        have hpc : p c = false := by rw [hc]; exact hlast
        rw [List.dropWhile_cons_of_neg (by simp [hpc])]
    rw [hrev, List.reverse_reverse]
  · exact ⟨(b.reverse.dropWhile p).reverse, by rw [List.reverse_append, List.reverse_reverse]⟩

lemma select_not_at_label (t : List Char) :
    ("select").data.isPrefixOf (label_sql ++ t) = false := by
  have h1 : ("select").data = 's' :: 'e' :: 'l' :: 'e' :: 'c' :: 't' :: [] := rfl
  have he : ('e' == 'q') = false := by decide
  rw [h1, label_sql]
  show List.isPrefixOf _ ('s' :: 'q' :: 'l' :: ':' :: t) = false
  simp [List.isPrefixOf, he]

/-- C10: the sanitizer strips the language label only at the very start of the
raw text, before any whitespace trimming: for every input made of nonempty
leading whitespace followed by `sql:` and anything else, the label survives
sanitization, and the sanitized result therefore fails the select check with
the select-only rejection. -/
theorem claim10_label_survives (w rest : List Char) (hw : w ≠ [])
    (hws : ∀ c ∈ w, isPySpace c = true) :
    label_sql.isPrefixOf
      (clean_sql ⟨w ++ ('s' :: 'q' :: 'l' :: ':' :: rest)⟩).data = true ∧
    validate_sql (clean_sql ⟨w ++ ('s' :: 'q' :: 'l' :: ':' :: rest)⟩) =
      (false, some "Only SELECT queries are allowed") := by
  have hno : ∀ c ∈ w ++ label_sql, c ≠ '\x60' := by
    intro c hc
    rcases List.mem_append.mp hc with h | h
    · exact isPySpace_not_btick c (hws c h)
    · rw [label_sql] at h
      simp at h
      rcases h with rfl | rfl | rfl | rfl <;> decide
  have hdata : (⟨w ++ ('s' :: 'q' :: 'l' :: ':' :: rest)⟩ : String).data =
      (w ++ label_sql) ++ rest := by
    show w ++ ('s' :: 'q' :: 'l' :: ':' :: rest) = (w ++ label_sql) ++ rest
    rw [List.append_assoc]
    rfl
  have e1 : subFenceSql ((w ++ label_sql) ++ rest) = (w ++ label_sql) ++ subFenceSql rest :=
    subFenceSql_append _ _ hno
  have e2 : subFence ((w ++ label_sql) ++ subFenceSql rest) =
      (w ++ label_sql) ++ subFence (subFenceSql rest) := subFence_append _ _ hno
  have e3 : dropLabel ((w ++ label_sql) ++ subFence (subFenceSql rest)) =
      (w ++ label_sql) ++ subFence (subFenceSql rest) := by
    obtain ⟨c0, w', hw0⟩ := List.exists_cons_of_ne_nil hw
    have hsp : isPySpace c0 = true := hws c0 (by rw [hw0]; exact List.mem_cons_self _ _)
    rw [hw0]
    exact dropLabel_eq_self _
      ((label_no_match_after_space c0 hsp _).1)
      ((label_no_match_after_space c0 hsp _).2)
  have e4 : ((w ++ label_sql) ++ subFence (subFenceSql rest)).dropWhile isPySpace =
      label_sql ++ subFence (subFenceSql rest) := by
    rw [List.append_assoc, List.dropWhile_append_of_pos hws]
    show List.dropWhile isPySpace
        ('s' :: 'q' :: 'l' :: ':' :: subFence (subFenceSql rest)) = _
    rw [List.dropWhile_cons_of_neg (by decide)]
    rfl
  obtain ⟨t1, e5⟩ := rdropWhile_append_keep isPySpace label_sql
    (subFence (subFenceSql rest)) (by decide) (by decide)
  obtain ⟨t2, e6⟩ := rdropWhile_append_keep isSemi label_sql t1 (by decide) (by decide)
  have hclean : (clean_sql ⟨w ++ ('s' :: 'q' :: 'l' :: ':' :: rest)⟩).data =
      label_sql ++ t2 := by
    rw [clean_sql_data, hdata, e1, e2, e3, py_strip_chars, e4, e5, e6]
  constructor
  · rw [hclean, List.isPrefixOf_iff_prefix]
    exact List.prefix_append _ _
  · apply validate_sql_not_select
    show ("select").data.isPrefixOf
        ((clean_sql ⟨w ++ ('s' :: 'q' :: 'l' :: ':' :: rest)⟩).data.map Char.toLower) = false
    rw [hclean, List.map_append]
    have hmap : label_sql.map Char.toLower = label_sql := by decide
    rw [hmap]
    exact select_not_at_label (t2.map Char.toLower)

/-- C10 witness: one space of leading whitespace before the label. -/
theorem claim10_witness :
    label_sql.isPrefixOf
      (clean_sql ⟨[' '] ++ ('s' :: 'q' :: 'l' :: ':' :: (" SELECT 1").data)⟩).data = true ∧
    validate_sql (clean_sql ⟨[' '] ++ ('s' :: 'q' :: 'l' :: ':' :: (" SELECT 1").data)⟩) =
      (false, some "Only SELECT queries are allowed") :=
  claim10_label_survives [' '] (" SELECT 1").data (by decide) (by decide)

end MCPServer
